import Mathlib

/-!
Shallow embedding of `slack-multi-channel-invite` (`src/main.go`).

The program is a sequential pipeline:
1. `getUserID` per email (users.lookupByEmail) collected in `main`s lookup loop;
2. `getChannels` (conversations.list, cursor pagination) building a
   name -> ID map;
3. per requested channel, `inviteUsersToChannel` (one batched
   conversations.invite call) or `removeUsersFromChannel` (one
   conversations.kick call per user, fail-fast).

Network I/O is modelled by oracles: every remote call is recorded as an
`Event`, and the response the server would give is supplied by an
`Outcome` value.  The channel-list endpoint is modelled as the sequence of
responses the server returns to the successive page requests (the Go loop
consumes exactly one response per iteration); an exhausted sequence stands
for a transport error.  Go map semantics (lookup of an absent key yields
the zero value `""`) are modelled by an association list with
last-write-wins insert.
-/

set_option autoImplicit false

deriving instance DecidableEq for Except

namespace SlackInvite

/-- Decoded JSON body of a response, or a decode failure
(`json.Decoder.Decode` returning an error in the Go code). -/
inductive Body (α : Type) where
  | decodeErr
  | decoded (a : α)
  deriving Repr, DecidableEq

/-- Result of one HTTP round trip: transport error (`httpClient.Do`
returning an error) or a status code with a body. -/
inductive Outcome (α : Type) where
  | netErr
  | httpResp (status : Nat) (body : Body α)
  deriving Repr, DecidableEq

/-- The error cases every remote-call helper in `main.go` can return. -/
inductive GoErr where
  | netErr
  | nonStatus200 (code : Nat)
  | decodeErr
  | nonOk
  deriving Repr, DecidableEq

/-- The `user` struct of `main.go`. -/
structure GoUser where
  ID : String
  Name : String
  deriving Repr, DecidableEq

/-- The `usersLookupByEmailResponse` struct of `main.go`. -/
structure UsersLookupByEmailResponse where
  Ok : Bool
  User : GoUser
  Error : String
  deriving Repr, DecidableEq

/-- The `channel` struct of `main.go`. -/
structure GoChannel where
  ID : String
  Name : String
  deriving Repr, DecidableEq

/-- The `responseMetadata` struct of `main.go`. -/
structure ResponseMetadata where
  NextCursor : String
  deriving Repr, DecidableEq

/-- The `conversationsListResponse` struct of `main.go` (the mis-tagged
`Error`/`Needed`/`Provided` fields never influence control flow and are
omitted). -/
structure ConversationsListResponse where
  Ok : Bool
  Channels : List GoChannel
  ResponseMetadata : ResponseMetadata
  deriving Repr, DecidableEq

/-- The `conversationsInviteResponse` struct of `main.go`. -/
structure ConversationsInviteResponse where
  Ok : Bool
  Error : String
  deriving Repr, DecidableEq

/-- The `conversationsKickResponse` struct of `main.go`. -/
structure ConversationsKickResponse where
  Ok : Bool
  Error : String
  deriving Repr, DecidableEq

/-- One observable remote call or console diagnostic of the pipeline. -/
inductive Event where
  | lookupCall (email : String)
  | listCall (cursor : String) (channelType : String)
  | inviteCall (channelID : String) (userIDs : String)
  | kickCall (channelID : String) (userID : String)
  | notFoundDiag (channelName : String)
  | noUsersDiag
  deriving Repr, DecidableEq

/-- The server side: what each remote endpoint answers.  `pages` is the
sequence of answers the conversations.list endpoint gives to the
successive page requests. -/
structure Env where
  lookup : String → Outcome UsersLookupByEmailResponse
  pages : List (Outcome ConversationsListResponse)
  invite : String → String → Outcome ConversationsInviteResponse
  kick : String → String → Outcome ConversationsKickResponse

/-- The shared HTTP-level handling every helper performs: transport error,
then the `resp.StatusCode != http.StatusOK` check, then JSON decoding. -/
def callResult {α : Type} (o : Outcome α) : Except GoErr α :=
  match o with
  | .netErr => .error .netErr
  | .httpResp status body =>
    if status ≠ 200 then .error (.nonStatus200 status)
    else
      match body with
      | .decodeErr => .error .decodeErr
      | .decoded a => .ok a

/-- The `getUserID` of `main.go`: one users.lookupByEmail call; fails on
transport error, non-200 status, decode error or `ok=false`, otherwise
returns `data.User.ID`. -/
def getUserID (lookup : String → Outcome UsersLookupByEmailResponse)
    (email : String) : Except GoErr String :=
  match callResult (lookup email) with
  | .error e => .error e
  | .ok data => if data.Ok = false then .error .nonOk else .ok data.User.ID

/-- The lookup loop of `main` (lines 104-114): one `getUserID` attempt per
email, appending the ID on success and continuing on failure.  Returns the
events issued and the accumulated `userIDs` slice. -/
def resolveUsers (lookup : String → Outcome UsersLookupByEmailResponse) :
    List String → List Event × List String
  | [] => ([], [])
  | email :: rest =>
    let tail := resolveUsers lookup rest
    match getUserID lookup email with
    | .error _ => (.lookupCall email :: tail.1, tail.2)
    | .ok id => (.lookupCall email :: tail.1, id :: tail.2)

/-- Go `map[string]string` as an association list; `mapGet` of an absent
key yields the zero value `""`, as Go map indexing does. -/
abbrev ChanMap : Type := List (String × String)

/-- Lookup with Go zero-value semantics. -/
def mapGet (m : ChanMap) (k : String) : String :=
  match m.find? (fun p => p.1 = k) with
  | some p => p.2
  | none => ""

/-- Insert with Go map semantics: overwrite the value if the key is
present, append otherwise. -/
def mapInsert (m : ChanMap) (k v : String) : ChanMap :=
  if m.any (fun p => p.1 = k) then
    m.map (fun p => if p.1 = k then (k, v) else p)
  else m ++ [(k, v)]

/-- Number of entries of the map (`len` in Go). -/
def mapLen (m : ChanMap) : Nat := m.length

/-- The `for _, channel := range data.Channels` body of `getChannels`:
`nameToID[channel.Name] = channel.ID` for each channel in page order. -/
def buildMap (acc : ChanMap) : List GoChannel → ChanMap
  | [] => acc
  | c :: cs => buildMap (mapInsert acc c.Name c.ID) cs

/-- The `channelType` selection of `getChannels` (lines 212-215). -/
def channelType (priv : Bool) : String :=
  if priv then "private_channel" else "public_channel"

/-- The pagination loop of `getChannels` (lines 221-270): request a page
with the current cursor, fail on transport error, non-200 status, decode
error or `ok=false`, merge the page into the map, stop when the returned
cursor is empty, otherwise continue with that cursor.  Each loop iteration
consumes the next server response; an exhausted response sequence stands
for a transport error on that request. -/
def getChannelsLoop (ctype : String) :
    List (Outcome ConversationsListResponse) → String → ChanMap →
    List Event × Except GoErr ChanMap
  | [], cursor, _ => ([.listCall cursor ctype], .error .netErr)
  | page :: rest, cursor, acc =>
    let ev : Event := .listCall cursor ctype
    match callResult page with
    | .error e => ([ev], .error e)
    | .ok data =>
      if data.Ok = false then ([ev], .error .nonOk)
      else
        let acc2 := buildMap acc data.Channels
        if data.ResponseMetadata.NextCursor = "" then ([ev], .ok acc2)
        else
          let tail := getChannelsLoop ctype rest data.ResponseMetadata.NextCursor acc2
          (ev :: tail.1, tail.2)

/-- The `getChannels` of `main.go`: the loop started with an empty cursor and
an empty map. -/
def getChannels (env : Env) (priv : Bool) :
    List Event × Except GoErr ChanMap :=
  getChannelsLoop (channelType priv) env.pages "" []

/-- The `inviteUsersToChannel` of `main.go`: exactly one conversations.invite
call whose body carries `strings.Join(userIDs, ",")`; fails on transport
error, non-200 status, decode error or `ok=false`. -/
def inviteUsersToChannel (env : Env) (userIDs : List String)
    (channelID : String) : List Event × Except GoErr Unit :=
  let joined := String.intercalate "," userIDs
  let ev : Event := .inviteCall channelID joined
  match callResult (env.invite channelID joined) with
  | .error e => ([ev], .error e)
  | .ok data => if data.Ok = false then ([ev], .error .nonOk) else ([ev], .ok ())

/-- The `removeUserFromChannel` of `main.go`: one conversations.kick call for
one user. -/
def removeUserFromChannel (env : Env) (userID channelID : String) :
    Except GoErr Unit :=
  match callResult (env.kick channelID userID) with
  | .error e => .error e
  | .ok data => if data.Ok = false then .error .nonOk else .ok ()

/-- The `removeUsersFromChannel` of `main.go` (lines 322-334): one kick call
per user in slice order, returning the first error and issuing no further
calls after it. -/
def removeUsersFromChannel (env : Env) (userIDs : List String)
    (channelID : String) : List Event × Except GoErr Unit :=
  match userIDs with
  | [] => ([], .ok ())
  | u :: rest =>
    let ev : Event := .kickCall channelID u
    match removeUserFromChannel env u channelID with
    | .error e => ([ev], .error e)
    | .ok _ =>
      let tail := removeUsersFromChannel env rest channelID
      (ev :: tail.1, tail.2)

/-- The `strings.Split(s, ",")` on the character list: splits around every
comma, keeping empty fields; the empty string yields one empty field, as
in Go. -/
def splitCommaAux : List Char → List (List Char)
  | [] => [[]]
  | c :: cs =>
    match splitCommaAux cs with
    | [] => [[]]
    | h :: t => if c = ',' then [] :: h :: t else (c :: h) :: t

/-- The `strings.Split(s, ",")` of `main.go`, used for the `emails` and
`channels` flags. -/
def goSplit (s : String) : List String :=
  (splitCommaAux s.toList).map (fun l => String.mk l)

/-- Per-channel outcome of the mutation loop of `main`. -/
inductive ChannelResult where
  | notFound
  | mutated
  | failed (e : GoErr)
  deriving Repr, DecidableEq

/-- The body of the `for _, channel := range channels` loop of `main`
(lines 138-164): resolve the name via the map, skip with a "not found"
diagnostic when the looked-up ID is `""`, otherwise invite (action add) or
remove (any other action, `main` having already validated it). -/
def processChannel (env : Env) (m : ChanMap) (userIDs : List String)
    (action : String) (name : String) : List Event × ChannelResult :=
  let channelID := mapGet m name
  if channelID = "" then ([.notFoundDiag name], .notFound)
  else if action = "add" then
    let r := inviteUsersToChannel env userIDs channelID
    match r.2 with
    | .error e => (r.1, .failed e)
    | .ok _ => (r.1, .mutated)
  else
    let r := removeUsersFromChannel env userIDs channelID
    match r.2 with
    | .error e => (r.1, .failed e)
    | .ok _ => (r.1, .mutated)

/-- The whole mutation loop of `main`: channels processed in order, a
failure for one channel never stopping the loop. -/
def processChannels (env : Env) (m : ChanMap) (userIDs : List String)
    (action : String) : List String → List Event × List ChannelResult
  | [] => ([], [])
  | name :: rest =>
    let head := processChannel env m userIDs action name
    let tail := processChannels env m userIDs action rest
    (head.1 ++ tail.1, head.2 :: tail.2)

/-- How the process ends: `os.Exit(code)` or normal return (status 0) are
`exitCode`, `panic(err)` is `panicked`. -/
inductive Termination where
  | exitCode (code : Nat)
  | panicked
  deriving Repr, DecidableEq

/-- The `main` of `main.go`: flag validation (exit 1), the lookup loop, the
empty-`userIDs` abort (normal return), `getChannels` (panic on error), and
the per-channel mutation loop. -/
def mainRun (env : Env) (apiToken action emails channelsArg : String)
    (priv : Bool) : List Event × Termination :=
  if apiToken = "" ∨ emails = "" ∨ channelsArg = "" ∨
      (action ≠ "add" ∧ action ≠ "remove") then
    ([], .exitCode 1)
  else
    let r := resolveUsers env.lookup (goSplit emails)
    if r.2.length = 0 then (r.1 ++ [.noUsersDiag], .exitCode 0)
    else
      let d := getChannels env priv
      match d.2 with
      | .error _ => (r.1 ++ d.1, .panicked)
      | .ok m =>
        let muts := processChannels env m r.2 action (goSplit channelsArg)
        (r.1 ++ d.1 ++ muts.1, .exitCode 0)

/-- Is this event a conversations.list request? -/
def isDirCall : Event → Bool
  | .listCall _ _ => true
  | _ => false

/-- Is this event a membership mutation request (invite or kick)? -/
def isMutCall : Event → Bool
  | .inviteCall _ _ => true
  | .kickCall _ _ => true
  | _ => false

/-- A well-formed page response: HTTP 200, decodable, `ok=true`, with the
given channels and next cursor. -/
def mkPage (chs : List GoChannel) (cursor : String) :
    Outcome ConversationsListResponse :=
  .httpResp 200 (.decoded ⟨true, chs, ⟨cursor⟩⟩)

/-- The cursors the pagination loop sends while consuming a run of
well-formed non-final pages, starting from `cursor`: each request carries
the cursor returned by the previous page. -/
def reqCursors (cursor : String) : List (List GoChannel × String) → List String
  | [] => []
  | p :: ps => cursor :: reqCursors p.2 ps

/-- The cursor left over after consuming a run of well-formed non-final
pages: the last returned cursor (or the starting one for an empty run). -/
def lastCursor (cursor : String) : List (List GoChannel × String) → String
  | [] => cursor
  | p :: ps => lastCursor p.2 ps

/-- A page response the Go code rejects: non-200 HTTP status, or a
decoded body with `ok=false`. -/
def badPage (o : Outcome ConversationsListResponse) : Prop :=
  (∃ code body2, code ≠ 200 ∧ o = .httpResp code body2) ∨
  (∃ d, o = .httpResp 200 (.decoded d) ∧ d.Ok = false)

/-- The ID a successful lookup of this email yields (zero value on
failure; used only on emails whose lookup succeeded). -/
def resolvedID (lookup : String → Outcome UsersLookupByEmailResponse)
    (email : String) : String :=
  match getUserID lookup email with
  | .ok id => id
  | .error _ => ""

/-- Transport used by concrete witnesses: lookups succeed except for
`b@x.com`, one channel page, invites succeed, kicking `idA` fails. -/
def witEnv : Env where
  lookup := fun e =>
    if e = "b@x.com" then .httpResp 200 (.decoded ⟨false, ⟨"", ""⟩, "users_not_found"⟩)
    else .httpResp 200 (.decoded ⟨true, ⟨"id_" ++ e, "name"⟩, ""⟩)
  pages := [.httpResp 200 (.decoded ⟨true, [⟨"C1", "general"⟩, ⟨"C2", "random"⟩], ⟨""⟩⟩)]
  invite := fun _ _ => .httpResp 200 (.decoded ⟨true, ""⟩)
  kick := fun _ u =>
    if u = "idA" then .httpResp 200 (.decoded ⟨false, "cant_kick_user"⟩)
    else .httpResp 200 (.decoded ⟨true, ""⟩)

/-- Transport where every email lookup answers ok=false. -/
def witEnvNoUsers : Env where
  lookup := fun _ => .httpResp 200 (.decoded ⟨false, ⟨"", ""⟩, "users_not_found"⟩)
  pages := []
  invite := fun _ _ => .netErr
  kick := fun _ _ => .netErr

/-- Transport where lookups succeed and the first channel page is an
HTTP 500. -/
def witEnvDirFail : Env where
  lookup := fun e => .httpResp 200 (.decoded ⟨true, ⟨"id_" ++ e, "n"⟩, ""⟩)
  pages := [.httpResp 500 .decodeErr]
  invite := fun _ _ => .netErr
  kick := fun _ _ => .netErr

/-- One full page carrying two channels that share a name. -/
def dupEnv : Env where
  lookup := fun _ => .netErr
  pages := [mkPage [⟨"X1", "dup"⟩, ⟨"X2", "dup"⟩] ""]
  invite := fun _ _ => .netErr
  kick := fun _ _ => .netErr

/-- Transport with two channel pages: `general` on the first page (cursor
`cur1`), `random` alone on the final page. -/
def witEnvTwoPages : Env where
  lookup := fun e => .httpResp 200 (.decoded ⟨true, ⟨"id_" ++ e, "n"⟩, ""⟩)
  pages := [mkPage [⟨"C1", "general"⟩] "cur1", mkPage [⟨"C2", "random"⟩] ""]
  invite := fun _ _ => .httpResp 200 (.decoded ⟨true, ""⟩)
  kick := fun _ _ => .httpResp 200 (.decoded ⟨true, ""⟩)

theorem resolveUsers_events (lookup : String → Outcome UsersLookupByEmailResponse)
    (emails : List String) :
    (resolveUsers lookup emails).1 = emails.map Event.lookupCall := by
  induction emails with
  | nil => rfl
  | cons e rest ih =>
    unfold resolveUsers
    cases h : getUserID lookup e <;> simp [h, ih]

theorem resolveUsers_ids (lookup : String → Outcome UsersLookupByEmailResponse)
    (emails : List String) :
    ∃ sub : List String, List.Sublist sub emails ∧
      (∀ e ∈ sub, ∃ id, getUserID lookup e = Except.ok id) ∧
      (resolveUsers lookup emails).2 = sub.map (resolvedID lookup) := by
  induction emails with
  | nil => exact ⟨[], by simp, by simp, rfl⟩
  | cons e rest ih =>
    obtain ⟨sub, hs, hok, hid⟩ := ih
    cases h : getUserID lookup e with
    | error err =>
      exact ⟨sub, hs.cons e, hok, by simp [resolveUsers, h, hid]⟩
    | ok id =>
      refine ⟨e :: sub, hs.cons₂ e, ?_, ?_⟩
      · intro x hx
        rcases List.mem_cons.mp hx with hx | hx
        · exact ⟨id, hx ▸ h⟩
        · exact hok x hx
      · simp [resolveUsers, h, hid, resolvedID]

theorem removeUsers_all_ok (env : Env) (ids : List String) (cid : String)
    (h : ∀ u ∈ ids, removeUserFromChannel env u cid = .ok ()) :
    removeUsersFromChannel env ids cid = (ids.map (Event.kickCall cid), .ok ()) := by
  induction ids with
  | nil => rfl
  | cons u rest ih =>
    have hu := h u (by simp)
    simp [removeUsersFromChannel, hu, ih (fun v hv => h v (by simp [hv]))]

theorem removeUsers_first_fail (env : Env) (cid : String) (e : GoErr)
    (u : String) (post : List String) (pre : List String)
    (hall : ∀ v ∈ pre, removeUserFromChannel env v cid = .ok ())
    (hu : removeUserFromChannel env u cid = .error e) :
    removeUsersFromChannel env (pre ++ u :: post) cid =
      ((pre ++ [u]).map (Event.kickCall cid), .error e) := by
  induction pre with
  | nil => simp [removeUsersFromChannel, hu]
  | cons v vs ih =>
    have hv := hall v (by simp)
    have := ih (fun w hw => hall w (by simp [hw]))
    simp [removeUsersFromChannel, hv, this]

/-- Claim C6: the resolver performs exactly one lookup per input email in
input order, and the resolved identifiers are the IDs of an
order-preserving sublist of the input emails (the ones whose lookup
succeeded); a failed lookup does not stop the remaining lookups. -/
theorem resolver_one_lookup_each_subset_order
    (lookup : String → Outcome UsersLookupByEmailResponse)
    (emails : List String) :
    (resolveUsers lookup emails).1 = emails.map Event.lookupCall ∧
    ∃ sub : List String, List.Sublist sub emails ∧
      (∀ e ∈ sub, ∃ id, getUserID lookup e = Except.ok id) ∧
      (resolveUsers lookup emails).2 = sub.map (resolvedID lookup) :=
  ⟨resolveUsers_events lookup emails, resolveUsers_ids lookup emails⟩

/-- Claim C3: the Add action issues exactly one invite call for the
channel, carrying all resolved user identifiers comma-joined in their
resolved order, whatever the server answers. -/
theorem add_action_single_batched_invite (env : Env) (userIDs : List String)
    (channelID : String) :
    (inviteUsersToChannel env userIDs channelID).1 =
      [Event.inviteCall channelID (String.intercalate "," userIDs)] := by
  unfold inviteUsersToChannel
  cases h : callResult (env.invite channelID (String.intercalate "," userIDs)) with
  | error e => simp [h]
  | ok data => by_cases hd : data.Ok = false <;> simp [h, hd]

/-- Claim C2: the Remove action issues one kick call per (channel, user)
pair in input order when every call succeeds, and stops at the first
failing call: the calls issued are exactly those for the preceding users
plus the failing one, the error is surfaced, and via `processChannel` the
channel is reported as failed. -/
theorem remove_action_per_user_fail_fast (env : Env) (cid : String)
    (ids : List String) :
    ((∀ u ∈ ids, removeUserFromChannel env u cid = .ok ()) →
      removeUsersFromChannel env ids cid = (ids.map (Event.kickCall cid), .ok ())) ∧
    (∀ pre u post e, ids = pre ++ u :: post →
      (∀ v ∈ pre, removeUserFromChannel env v cid = .ok ()) →
      removeUserFromChannel env u cid = .error e →
      removeUsersFromChannel env ids cid =
        ((pre ++ [u]).map (Event.kickCall cid), .error e)) ∧
    (∀ m name pre u post e, mapGet m name = cid → cid ≠ "" →
      ids = pre ++ u :: post →
      (∀ v ∈ pre, removeUserFromChannel env v cid = .ok ()) →
      removeUserFromChannel env u cid = .error e →
      processChannel env m ids "remove" name =
        ((pre ++ [u]).map (Event.kickCall cid), .failed e)) := by
  refine ⟨fun h => removeUsers_all_ok env ids cid h, ?_, ?_⟩
  · intro pre u post e hsplit hall hu
    exact hsplit ▸ removeUsers_first_fail env cid e u post pre hall hu
  · intro m name pre u post e hmap hne hsplit hall hu
    have hrem := removeUsers_first_fail env cid e u post pre hall hu
    simp [processChannel, hmap, hne, hsplit, hrem]

/-- Witness for claim C2 at a concrete input: users `idZ, idA, idB` with
`idA` failing; exactly the calls for `idZ` and `idA` are issued. -/
theorem remove_action_per_user_fail_fast_witness :
    removeUsersFromChannel witEnv ["idZ", "idA", "idB"] "C1" =
      ([Event.kickCall "C1" "idZ", Event.kickCall "C1" "idA"], .error .nonOk) := by
  have h := (remove_action_per_user_fail_fast witEnv "C1" ["idZ", "idA", "idB"]).2.1
    ["idZ"] "idA" ["idB"] .nonOk rfl (by decide) (by decide)
  simpa using h

theorem processChannels_append (env : Env) (m : ChanMap) (uids : List String)
    (action : String) (cs1 cs2 : List String) :
    processChannels env m uids action (cs1 ++ cs2) =
      ((processChannels env m uids action cs1).1 ++
        (processChannels env m uids action cs2).1,
       (processChannels env m uids action cs1).2 ++
        (processChannels env m uids action cs2).2) := by
  induction cs1 with
  | nil => simp [processChannels]
  | cons c cs ih => simp [processChannels, ih]

/-- Claim C7: a requested name whose looked-up identifier is empty is
skipped with a "not found" diagnostic and zero mutation calls, and the
loop is channel-isolated: the events and results for later channels are
exactly those they would produce on their own, whatever happened to the
earlier channels. -/
theorem channel_not_found_skip_and_isolation (env : Env) (m : ChanMap)
    (uids : List String) (action : String) :
    (∀ name, mapGet m name = "" →
      processChannel env m uids action name = ([.notFoundDiag name], .notFound)) ∧
    (∀ cs1 cs2,
      processChannels env m uids action (cs1 ++ cs2) =
        ((processChannels env m uids action cs1).1 ++
          (processChannels env m uids action cs2).1,
         (processChannels env m uids action cs1).2 ++
          (processChannels env m uids action cs2).2)) := by
  constructor
  · intro name h
    simp [processChannel, h]
  · exact processChannels_append env m uids action

/-- Witness for claim C7: the name `missing` is absent from a concrete
map, so it yields only the diagnostic, and processing continues with the
next channel unchanged. -/
theorem channel_not_found_skip_witness :
    processChannel witEnv [("general", "C1")] ["idT"] "add" "missing" =
      ([.notFoundDiag "missing"], .notFound) ∧
    processChannels witEnv [("general", "C1")] ["idT"] "add" ["missing", "general"] =
      ((processChannels witEnv [("general", "C1")] ["idT"] "add" ["missing"]).1 ++
        (processChannels witEnv [("general", "C1")] ["idT"] "add" ["general"]).1,
       (processChannels witEnv [("general", "C1")] ["idT"] "add" ["missing"]).2 ++
        (processChannels witEnv [("general", "C1")] ["idT"] "add" ["general"]).2) :=
  ⟨(channel_not_found_skip_and_isolation witEnv [("general", "C1")] ["idT"] "add").1
      "missing" (by decide),
   (channel_not_found_skip_and_isolation witEnv [("general", "C1")] ["idT"] "add").2
      ["missing"] ["general"]⟩

/-- Claim C9: an entry carrying the empty string as identifier behaves
exactly like an absent entry: the not-found test compares the looked-up
identifier against `""`, so both cases are skipped with the "not found"
diagnostic and are indistinguishable. -/
theorem empty_identifier_same_as_absent (env : Env) (m : ChanMap)
    (uids : List String) (action name : String)
    (h : m.find? (fun p => p.1 = name) = some (name, "")) :
    mapGet m name = "" ∧
    processChannel env m uids action name = ([.notFoundDiag name], .notFound) ∧
    ∀ m2 : ChanMap, m2.find? (fun p => p.1 = name) = none →
      processChannel env m2 uids action name =
        processChannel env m uids action name := by
  have hg : mapGet m name = "" := by simp [mapGet, h]
  refine ⟨hg, by simp [processChannel, hg], ?_⟩
  intro m2 h2
  have hg2 : mapGet m2 name = "" := by simp [mapGet, h2]
  simp [processChannel, hg, hg2]

/-- Witness for claim C9: a map holding `("ghost", "")` treats `ghost`
exactly like the empty map does. -/
theorem empty_identifier_same_as_absent_witness :
    mapGet [("ghost", "")] "ghost" = "" ∧
    processChannel witEnv [("ghost", "")] ["idT"] "add" "ghost" =
      ([.notFoundDiag "ghost"], .notFound) ∧
    processChannel witEnv [] ["idT"] "add" "ghost" =
      processChannel witEnv [("ghost", "")] ["idT"] "add" "ghost" := by
  have h := empty_identifier_same_as_absent witEnv [("ghost", "")] ["idT"] "add" "ghost"
    (by decide)
  exact ⟨h.1, h.2.1, h.2.2 [] (by decide)⟩

/-- Claim C1: with valid flags, if the lookup loop resolves no user the
run issues zero conversations.list calls and zero mutation calls: the
trace is the lookup calls followed by the abort diagnostic. -/
theorem empty_resolution_aborts_early (env : Env)
    (token action emails chans : String) (priv : Bool)
    (htok : token ≠ "") (hem : emails ≠ "") (hch : chans ≠ "")
    (hact : action = "add" ∨ action = "remove")
    (hres : (resolveUsers env.lookup (goSplit emails)).2 = []) :
    (mainRun env token action emails chans priv).1 =
      (goSplit emails).map Event.lookupCall ++ [.noUsersDiag] ∧
    (mainRun env token action emails chans priv).1.countP isDirCall = 0 ∧
    (mainRun env token action emails chans priv).1.countP isMutCall = 0 := by
  have hcond : ¬(token = "" ∨ emails = "" ∨ chans = "" ∨
      (action ≠ "add" ∧ action ≠ "remove")) := by
    push_neg
    refine ⟨htok, hem, hch, fun h1 => ?_⟩
    rcases hact with h | h
    · exact absurd h h1
    · exact h
  have htrace : (mainRun env token action emails chans priv).1 =
      (goSplit emails).map Event.lookupCall ++ [.noUsersDiag] := by
    unfold mainRun
    rw [if_neg hcond]
    simp [hres, resolveUsers_events]
  refine ⟨htrace, ?_, ?_⟩ <;>
    · rw [htrace, List.countP_eq_zero]
      intro ev hev
      rcases List.mem_append.mp hev with hev | hev
      · obtain ⟨e, _, rfl⟩ := List.mem_map.mp hev
        simp [isDirCall, isMutCall]
      · simp at hev
        subst hev
        simp [isDirCall, isMutCall]

/-- Witness for claim C1 at a concrete input: both lookups fail and the
trace ends at the diagnostic, with no directory and no mutation call. -/
theorem empty_resolution_aborts_early_witness :
    (mainRun witEnvNoUsers "t" "add" "a@x.com,b@x.com" "general" false).1 =
      [Event.lookupCall "a@x.com", Event.lookupCall "b@x.com", .noUsersDiag] ∧
    (mainRun witEnvNoUsers "t" "add" "a@x.com,b@x.com" "general" false).1.countP isDirCall = 0 ∧
    (mainRun witEnvNoUsers "t" "add" "a@x.com,b@x.com" "general" false).1.countP isMutCall = 0 := by
  have h := empty_resolution_aborts_early witEnvNoUsers "t" "add" "a@x.com,b@x.com"
    "general" false (by decide) (by decide) (by decide) (Or.inl rfl) (by decide)
  simpa using h

/-- Claim C10: with valid flags an empty resolved-user list ends the run
as a normal return with exit status 0, while missing/invalid flags exit
with status 1 before any event, and a directory-fetch failure ends in a
panic. -/
theorem abort_is_normal_return (env : Env)
    (token action emails chans : String) (priv : Bool)
    (htok : token ≠ "") (hem : emails ≠ "") (hch : chans ≠ "")
    (hact : action = "add" ∨ action = "remove") :
    ((resolveUsers env.lookup (goSplit emails)).2 = [] →
      (mainRun env token action emails chans priv).2 = .exitCode 0) ∧
    (∀ e, (resolveUsers env.lookup (goSplit emails)).2 ≠ [] →
      (getChannels env priv).2 = .error e →
      (mainRun env token action emails chans priv).2 = .panicked) ∧
    (∀ t2 a2 e2 c2, (t2 = "" ∨ e2 = "" ∨ c2 = "" ∨ (a2 ≠ "add" ∧ a2 ≠ "remove")) →
      mainRun env t2 a2 e2 c2 priv = ([], .exitCode 1)) := by
  have hcond : ¬(token = "" ∨ emails = "" ∨ chans = "" ∨
      (action ≠ "add" ∧ action ≠ "remove")) := by
    push_neg
    refine ⟨htok, hem, hch, fun h1 => ?_⟩
    rcases hact with h | h
    · exact absurd h h1
    · exact h
  refine ⟨?_, ?_, ?_⟩
  · intro hres
    unfold mainRun
    rw [if_neg hcond]
    simp [hres]
  · intro e hne herr
    unfold mainRun
    rw [if_neg hcond]
    simp [List.length_eq_zero, hne, herr]
  · intro t2 a2 e2 c2 hbadflags
    unfold mainRun
    rw [if_pos hbadflags]

/-- Witness for claim C10: exit 0 on no resolved users, exit 1 on a
missing token, panic on a failing first directory page. -/
theorem abort_is_normal_return_witness :
    (mainRun witEnvNoUsers "t" "add" "b@x.com" "general" false).2 = .exitCode 0 ∧
    mainRun witEnvDirFail "" "add" "a@x.com" "general" false = ([], .exitCode 1) ∧
    (mainRun witEnvDirFail "t" "add" "a@x.com" "general" false).2 = .panicked := by
  refine ⟨?_, ?_, ?_⟩
  · exact (abort_is_normal_return witEnvNoUsers "t" "add" "b@x.com" "general" false
      (by decide) (by decide) (by decide) (Or.inl rfl)).1 (by decide)
  · exact (abort_is_normal_return witEnvDirFail "t" "add" "a@x.com" "general" false
      (by decide) (by decide) (by decide) (Or.inl rfl)).2.2 "" "add" "a@x.com" "general"
      (Or.inl rfl)
  · exact (abort_is_normal_return witEnvDirFail "t" "add" "a@x.com" "general" false
      (by decide) (by decide) (by decide) (Or.inl rfl)).2.1 (.nonStatus200 500)
      (by decide) (by decide)

theorem callResult_mkPage (chs : List GoChannel) (cursor : String) :
    callResult (mkPage chs cursor) =
      .ok ⟨true, chs, ⟨cursor⟩⟩ := rfl

theorem buildMap_append (acc : ChanMap) (xs ys : List GoChannel) :
    buildMap acc (xs ++ ys) = buildMap (buildMap acc xs) ys := by
  induction xs generalizing acc with
  | nil => rfl
  | cons c cs ih => simp [buildMap, ih]

theorem getChannelsLoop_final (ctype : String) (chs : List GoChannel)
    (rest : List (Outcome ConversationsListResponse)) (cursor : String)
    (acc : ChanMap) :
    getChannelsLoop ctype (mkPage chs "" :: rest) cursor acc =
      ([.listCall cursor ctype], .ok (buildMap acc chs)) := by
  simp [getChannelsLoop, callResult_mkPage]

theorem getChannelsLoop_run (ctype : String)
    (body : List (List GoChannel × String))
    (rest : List (Outcome ConversationsListResponse)) (cursor : String)
    (acc : ChanMap) (hb : ∀ p ∈ body, p.2 ≠ "") :
    getChannelsLoop ctype (body.map (fun p => mkPage p.1 p.2) ++ rest) cursor acc =
      ((reqCursors cursor body).map (fun c => Event.listCall c ctype) ++
        (getChannelsLoop ctype rest (lastCursor cursor body)
          (buildMap acc (body.flatMap Prod.fst))).1,
       (getChannelsLoop ctype rest (lastCursor cursor body)
          (buildMap acc (body.flatMap Prod.fst))).2) := by
  induction body generalizing cursor acc with
  | nil => simp [reqCursors, lastCursor, buildMap]
  | cons p ps ih =>
    have hp : p.2 ≠ "" := hb p (by simp)
    have ihp := ih p.2 (buildMap acc p.1) (fun q hq => hb q (by simp [hq]))
    simp [getChannelsLoop, callResult_mkPage, hp, reqCursors, lastCursor,
      buildMap_append, ihp]

theorem reqCursors_snoc (cursor : String)
    (body : List (List GoChannel × String)) :
    reqCursors cursor body ++ [lastCursor cursor body] =
      cursor :: body.map Prod.snd := by
  induction body generalizing cursor with
  | nil => rfl
  | cons p ps ih => simp [reqCursors, lastCursor, ih p.2]

theorem getChannelsLoop_bad (ctype : String)
    (o : Outcome ConversationsListResponse)
    (rest : List (Outcome ConversationsListResponse)) (cursor : String)
    (acc : ChanMap) (h : badPage o) :
    ∃ e, getChannelsLoop ctype (o :: rest) cursor acc =
      ([.listCall cursor ctype], .error e) := by
  rcases h with ⟨code, b, hc, rfl⟩ | ⟨d, rfl, hd⟩
  · exact ⟨.nonStatus200 code, by simp [getChannelsLoop, callResult, hc]⟩
  · exact ⟨.nonOk, by simp [getChannelsLoop, callResult, hd]⟩

theorem getChannelsLoop_events (ctype : String)
    (pages : List (Outcome ConversationsListResponse)) (cursor : String)
    (acc : ChanMap) :
    ∀ ev ∈ (getChannelsLoop ctype pages cursor acc).1,
      ∃ c, ev = Event.listCall c ctype := by
  induction pages generalizing cursor acc with
  | nil =>
    intro ev hev
    simp [getChannelsLoop] at hev
    exact ⟨cursor, hev⟩
  | cons page rest ih =>
    intro ev hev
    unfold getChannelsLoop at hev
    cases hres : callResult page with
    | error e =>
      simp [hres] at hev
      exact ⟨cursor, hev⟩
    | ok data =>
      by_cases hok : data.Ok = false
      · simp [hres, hok] at hev
        exact ⟨cursor, hev⟩
      · by_cases hcur : data.ResponseMetadata.NextCursor = ""
        · simp [hres, hok, hcur] at hev
          exact ⟨cursor, hev⟩
        · simp [hres, hok, hcur] at hev
          rcases hev with hev | hev
          · exact ⟨cursor, hev⟩
          · exact ih _ _ ev hev

theorem find?_map_overwrite (m : ChanMap) (k v : String)
    (hany : m.any (fun p => p.1 = k) = true) :
    (m.map (fun p => if p.1 = k then (k, v) else p)).find?
      (fun p => p.1 = k) = some (k, v) := by
  induction m with
  | nil => simp at hany
  | cons p ps ih =>
    by_cases hp : p.1 = k
    · simp [hp]
    · have h2 : ps.any (fun q => q.1 = k) = true := by simpa [hp] using hany
      simp [hp, ih h2]

theorem mapGet_mapInsert_self (m : ChanMap) (k v : String) :
    mapGet (mapInsert m k v) k = v := by
  unfold mapInsert
  by_cases hany : m.any (fun p => p.1 = k) = true
  · rw [if_pos hany]
    unfold mapGet
    rw [find?_map_overwrite m k v hany]
  · rw [if_neg hany]
    unfold mapGet
    have hnone : m.find? (fun p => p.1 = k) = none := by
      rw [List.find?_eq_none]
      intro p hp
      simp only [List.any_eq_true, decide_eq_true_eq, not_exists] at hany
      simp only [decide_eq_true_eq]
      intro hk
      exact hany p ⟨hp, hk⟩
    rw [List.find?_append, hnone]
    simp

theorem find?_map_overwrite_ne (m : ChanMap) (k v name : String)
    (h : k ≠ name) :
    (m.map (fun p => if p.1 = k then (k, v) else p)).find?
      (fun p => p.1 = name) = m.find? (fun p => p.1 = name) := by
  induction m with
  | nil => rfl
  | cons p ps ih =>
    rw [List.map_cons]
    by_cases hp : p.1 = k
    · have hpn : ¬(p.1 = name) := by rw [hp]; exact h
      rw [if_pos hp]
      rw [List.find?_cons_of_neg _ (by simpa using h),
        List.find?_cons_of_neg _ (by simpa using hpn), ih]
    · rw [if_neg hp]
      by_cases hn : p.1 = name
      · rw [List.find?_cons_of_pos _ (by simpa using hn),
          List.find?_cons_of_pos _ (by simpa using hn)]
      · rw [List.find?_cons_of_neg _ (by simpa using hn),
          List.find?_cons_of_neg _ (by simpa using hn), ih]

theorem mapGet_mapInsert_ne (m : ChanMap) (k v name : String)
    (h : k ≠ name) :
    mapGet (mapInsert m k v) name = mapGet m name := by
  unfold mapInsert
  by_cases hany : m.any (fun p => p.1 = k) = true
  · rw [if_pos hany]
    unfold mapGet
    rw [find?_map_overwrite_ne m k v name h]
  · rw [if_neg hany]
    unfold mapGet
    rw [List.find?_append]
    have : ([(k, v)] : ChanMap).find? (fun p => p.1 = name) = none := by
      simp [h]
    rw [this]
    simp

theorem mapInsert_length_new (m : ChanMap) (k v : String)
    (h : m.any (fun p => p.1 = k) = false) :
    (mapInsert m k v).length = m.length + 1 := by
  simp [mapInsert, h]

theorem mapInsert_hasKey_false (m : ChanMap) (k v k2 : String)
    (hm : m.any (fun p => p.1 = k2) = false) (hne : k2 ≠ k) :
    (mapInsert m k v).any (fun p => p.1 = k2) = false := by
  unfold mapInsert
  by_cases h : m.any (fun p => p.1 = k) = true
  · rw [if_pos h, List.any_map]
    rw [List.any_eq_false]
    intro q hq
    rw [List.any_eq_false] at hm
    have hq2 := hm q hq
    by_cases hqk : q.1 = k
    · simp [Function.comp, hqk]
      exact fun hkk => hne hkk.symm
    · simpa [Function.comp, hqk] using hq2
  · rw [if_neg h, List.any_append]
    rw [hm]
    simp
    exact fun hkk => hne hkk.symm

theorem buildMap_length_nodup (chs : List GoChannel) (m : ChanMap)
    (hnew : ∀ c ∈ chs, m.any (fun p => p.1 = c.Name) = false)
    (hnd : (chs.map GoChannel.Name).Nodup) :
    (buildMap m chs).length = m.length + chs.length := by
  induction chs generalizing m with
  | nil => rfl
  | cons c cs ih =>
    have hc := hnew c (by simp)
    have hnd2 : (cs.map GoChannel.Name).Nodup := (List.nodup_cons.mp hnd).2
    have hnotin : c.Name ∉ cs.map GoChannel.Name := (List.nodup_cons.mp hnd).1
    have hnew2 : ∀ d ∈ cs,
        (mapInsert m c.Name c.ID).any (fun p => p.1 = d.Name) = false := by
      intro d hd
      refine mapInsert_hasKey_false m c.Name c.ID d.Name (hnew d (by simp [hd])) ?_
      intro hEq
      exact hnotin (hEq ▸ List.mem_map_of_mem GoChannel.Name hd)
    rw [buildMap, ih _ hnew2 hnd2, mapInsert_length_new m c.Name c.ID hc]
    simp [List.length_cons]
    omega

theorem mapGet_buildMap_of_notin (chs : List GoChannel) (acc : ChanMap)
    (name : String) (h : ∀ c ∈ chs, c.Name ≠ name) :
    mapGet (buildMap acc chs) name = mapGet acc name := by
  induction chs generalizing acc with
  | nil => rfl
  | cons c cs ih =>
    have hc : c.Name ≠ name := h c (by simp)
    rw [buildMap, ih _ (fun d hd => h d (by simp [hd]))]
    exact mapGet_mapInsert_ne acc c.Name c.ID name hc

theorem mapGet_buildMap_single (chs : List GoChannel) (acc : ChanMap)
    (name i : String)
    (h : chs.filter (fun c => c.Name = name) = [⟨i, name⟩]) :
    mapGet (buildMap acc chs) name = i := by
  induction chs generalizing acc with
  | nil => simp at h
  | cons c cs ih =>
    by_cases hc : c.Name = name
    · rw [List.filter_cons_of_pos (by simp [hc])] at h
      have hhead : c = (⟨i, name⟩ : GoChannel) := (List.cons_eq_cons.mp h).1
      have htail : cs.filter (fun d => d.Name = name) = [] :=
        (List.cons_eq_cons.mp h).2
      have hnone : ∀ d ∈ cs, d.Name ≠ name := by
        intro d hd hdn
        have hmem : d ∈ cs.filter (fun d => d.Name = name) :=
          List.mem_filter.mpr ⟨hd, by simp [hdn]⟩
        rw [htail] at hmem
        simp at hmem
      rw [buildMap, mapGet_buildMap_of_notin cs _ name hnone, hhead]
      exact mapGet_mapInsert_self acc name i
    · rw [List.filter_cons_of_neg (by simp [hc])] at h
      rw [buildMap]
      exact ih _ h

theorem inviteUsersToChannel_events (env : Env) (uids : List String)
    (cid : String) :
    (inviteUsersToChannel env uids cid).1 =
      [Event.inviteCall cid (String.intercalate "," uids)] := by
  unfold inviteUsersToChannel
  cases h : callResult (env.invite cid (String.intercalate "," uids)) with
  | error e => simp [h]
  | ok data => by_cases hd : data.Ok = false <;> simp [h, hd]

theorem removeUsers_events_shape (env : Env) (ids : List String)
    (cid : String) :
    ∀ ev ∈ (removeUsersFromChannel env ids cid).1, ∃ u, ev = Event.kickCall cid u := by
  induction ids with
  | nil => intro ev hev; simp [removeUsersFromChannel] at hev
  | cons u rest ih =>
    intro ev hev
    unfold removeUsersFromChannel at hev
    cases hr : removeUserFromChannel env u cid with
    | error e =>
      simp [hr] at hev
      exact ⟨u, hev⟩
    | ok r =>
      simp [hr] at hev
      rcases hev with hev | hev
      · exact ⟨u, hev⟩
      · exact ih ev hev

theorem processChannel_events_no_dir (env : Env) (m : ChanMap)
    (uids : List String) (action name : String) :
    ∀ ev ∈ (processChannel env m uids action name).1, isDirCall ev = false := by
  intro ev hev
  unfold processChannel at hev
  by_cases h : mapGet m name = ""
  · simp [h] at hev
    simp [hev, isDirCall]
  · by_cases ha : action = "add"
    · rw [if_neg h, if_pos ha] at hev
      have hs := inviteUsersToChannel_events env uids (mapGet m name)
      cases hr : (inviteUsersToChannel env uids (mapGet m name)).2 <;>
        · simp [hr, hs] at hev
          simp [hev, isDirCall]
    · rw [if_neg h, if_neg ha] at hev
      have hs := removeUsers_events_shape env uids (mapGet m name)
      cases hr : (removeUsersFromChannel env uids (mapGet m name)).2 <;>
        · simp [hr] at hev
          obtain ⟨u, rfl⟩ := hs ev hev
          simp [isDirCall]

theorem processChannels_no_dir (env : Env) (m : ChanMap)
    (uids : List String) (action : String) (cs : List String) :
    ∀ ev ∈ (processChannels env m uids action cs).1, isDirCall ev = false := by
  induction cs with
  | nil => intro ev hev; simp [processChannels] at hev
  | cons c rest ih =>
    intro ev hev
    unfold processChannels at hev
    rcases List.mem_append.mp hev with hev | hev
    · exact processChannel_events_no_dir env m uids action c ev hev
    · exact ih ev hev

theorem processChannel_add_events (env : Env) (m : ChanMap)
    (uids : List String) (name : String) (h : mapGet m name ≠ "") :
    (processChannel env m uids "add" name).1 =
      [Event.inviteCall (mapGet m name) (String.intercalate "," uids)] := by
  unfold processChannel
  rw [if_neg h, if_pos rfl]
  have hs := inviteUsersToChannel_events env uids (mapGet m name)
  cases hr : (inviteUsersToChannel env uids (mapGet m name)).2 <;> simp [hr, hs]

theorem processChannels_invite_mem (env : Env) (m : ChanMap)
    (uids : List String) (cs : List String) (name : String)
    (hmem : name ∈ cs) (hmap : mapGet m name ≠ "") :
    Event.inviteCall (mapGet m name) (String.intercalate "," uids) ∈
      (processChannels env m uids "add" cs).1 := by
  induction cs with
  | nil => cases hmem
  | cons c rest ih =>
    unfold processChannels
    rcases List.mem_cons.mp hmem with rfl | hmem2
    · apply List.mem_append_left
      rw [processChannel_add_events env m uids name hmap]
      simp
    · exact List.mem_append_right _ (ih hmem2)

/-- Claim C4 (amended): the directory fetch requests the first page with
the empty cursor and each further page with the cursor returned by the
previous page, stopping exactly at the first empty returned cursor — any
responses beyond it are never requested, even when the last consumed page
is full; the resulting mapping is the last-write-wins fold of the
channels of all pages, and its size equals the sum of the channel counts across all
pages whenever the channel names are distinct across pages (with
duplicate names the later write overwrites, so the size is the number of
distinct names). -/
theorem directory_pagination_and_size (env : Env) (priv : Bool)
    (body : List (List GoChannel × String)) (lastPage : List GoChannel)
    (extra : List (Outcome ConversationsListResponse))
    (hb : ∀ p ∈ body, p.2 ≠ "")
    (hpages : env.pages =
      body.map (fun p => mkPage p.1 p.2) ++ mkPage lastPage "" :: extra) :
    (getChannels env priv).1 =
      ("" :: body.map Prod.snd).map
        (fun c => Event.listCall c (channelType priv)) ∧
    (getChannels env priv).2 =
      .ok (buildMap [] (body.flatMap Prod.fst ++ lastPage)) ∧
    (((body.flatMap Prod.fst ++ lastPage).map GoChannel.Name).Nodup →
      mapLen (buildMap [] (body.flatMap Prod.fst ++ lastPage)) =
        (body.map (fun p => p.1.length)).sum + lastPage.length) := by
  have hrun := getChannelsLoop_run (channelType priv) body
    (mkPage lastPage "" :: extra) "" [] hb
  have hfin := getChannelsLoop_final (channelType priv) lastPage extra
    (lastCursor "" body) (buildMap [] (body.flatMap Prod.fst))
  unfold getChannels
  rw [hpages, hrun, hfin]
  refine ⟨?_, ?_, ?_⟩
  · rw [← reqCursors_snoc "" body]
    simp [List.map_append]
  · rw [buildMap_append]
  · intro hnd
    have hlen := buildMap_length_nodup (body.flatMap Prod.fst ++ lastPage) []
      (by simp) hnd
    rw [mapLen, hlen]
    simp [List.length_append, List.length_flatMap, Function.comp]
    rfl

/-- Counterexample to claim C4 as stated: a page holding two channels
with the same name produces a mapping of size 1, not the page-count sum
2 — the later entry overwrote the earlier one. -/
theorem directory_size_counterexample :
    (getChannels dupEnv false).2 = .ok [("dup", "X2")] ∧
    ¬ mapLen [("dup", "X2")] =
        [GoChannel.mk "X1" "dup", GoChannel.mk "X2" "dup"].length := by
  constructor
  · rfl
  · decide

/-- Witness for claim C4 at a concrete two-page directory: the requested
cursors are `""` then `cur1`, the mapping folds both pages, and the size
equals 1 + 1 because the two names differ. -/
theorem directory_pagination_and_size_witness :
    (getChannels witEnvTwoPages false).1 =
      [Event.listCall "" "public_channel", Event.listCall "cur1" "public_channel"] ∧
    (getChannels witEnvTwoPages false).2 =
      .ok (buildMap [] [⟨"C1", "general"⟩, ⟨"C2", "random"⟩]) ∧
    mapLen (buildMap [] [⟨"C1", "general"⟩, ⟨"C2", "random"⟩]) = 2 := by
  have h := directory_pagination_and_size witEnvTwoPages false
    [([⟨"C1", "general"⟩], "cur1")] [⟨"C2", "random"⟩] []
    (by intro p hp; simp at hp; rw [hp]; decide) rfl
  refine ⟨by simpa using h.1, by simpa using h.2.1, ?_⟩
  have := h.2.2 (by decide)
  simpa using this

/-- Claim C5: a page answering with a non-200 status or `ok=false`
anywhere in the pagination makes the whole fetch return an error — no
incomplete mapping reaches the caller — and in the pipeline this is fatal:
`main` panics and not a single mutation call is issued. -/
theorem directory_page_failure_fatal (env : Env) (priv : Bool)
    (token action emails chans : String)
    (htok : token ≠ "") (hem : emails ≠ "") (hch : chans ≠ "")
    (hact : action = "add" ∨ action = "remove")
    (body : List (List GoChannel × String))
    (bad : Outcome ConversationsListResponse)
    (rest : List (Outcome ConversationsListResponse))
    (hb : ∀ p ∈ body, p.2 ≠ "") (hbad : badPage bad)
    (hpages : env.pages = body.map (fun p => mkPage p.1 p.2) ++ bad :: rest) :
    (∃ e, (getChannels env priv).2 = .error e) ∧
    ((resolveUsers env.lookup (goSplit emails)).2 ≠ [] →
      (mainRun env token action emails chans priv).2 = .panicked ∧
      (mainRun env token action emails chans priv).1.countP isMutCall = 0) := by
  obtain ⟨e, hloop⟩ := getChannelsLoop_bad (channelType priv) bad rest
    (lastCursor "" body) (buildMap [] (body.flatMap Prod.fst)) hbad
  have hrun := getChannelsLoop_run (channelType priv) body (bad :: rest) "" [] hb
  have hchan : getChannels env priv =
      ((reqCursors "" body).map (fun c => Event.listCall c (channelType priv)) ++
        [Event.listCall (lastCursor "" body) (channelType priv)], .error e) := by
    unfold getChannels
    rw [hpages, hrun, hloop]
  have hcond : ¬(token = "" ∨ emails = "" ∨ chans = "" ∨
      (action ≠ "add" ∧ action ≠ "remove")) := by
    push_neg
    refine ⟨htok, hem, hch, fun h1 => ?_⟩
    rcases hact with h | h
    · exact absurd h h1
    · exact h
  refine ⟨⟨e, by rw [hchan]⟩, fun hne => ?_⟩
  have hmain : mainRun env token action emails chans priv =
      ((resolveUsers env.lookup (goSplit emails)).1 ++
        ((reqCursors "" body).map (fun c => Event.listCall c (channelType priv)) ++
          [Event.listCall (lastCursor "" body) (channelType priv)]), .panicked) := by
    unfold mainRun
    rw [if_neg hcond]
    simp [List.length_eq_zero, hne, hchan]
  rw [hmain]
  refine ⟨rfl, ?_⟩
  rw [List.countP_eq_zero]
  intro ev hev
  rcases List.mem_append.mp hev with hev | hev
  · rw [resolveUsers_events] at hev
    obtain ⟨x, _, rfl⟩ := List.mem_map.mp hev
    simp [isMutCall]
  · rcases List.mem_append.mp hev with hev | hev
    · obtain ⟨x, _, rfl⟩ := List.mem_map.mp hev
      simp [isMutCall]
    · simp at hev
      rw [hev]
      simp [isMutCall]

/-- Witness for claim C5: the very first page answers HTTP 500, the fetch
fails, the run panics, and zero mutation calls appear in the trace. -/
theorem directory_page_failure_fatal_witness :
    (∃ e, (getChannels witEnvDirFail false).2 = .error e) ∧
    (mainRun witEnvDirFail "t" "add" "a@x.com" "general" false).2 = .panicked ∧
    (mainRun witEnvDirFail "t" "add" "a@x.com" "general" false).1.countP isMutCall = 0 := by
  have h := directory_page_failure_fatal witEnvDirFail false "t" "add" "a@x.com"
    "general" (by decide) (by decide) (by decide) (Or.inl rfl) [] (.httpResp 500 .decodeErr)
    [] (by simp) (Or.inl ⟨500, .decodeErr, by decide, rfl⟩) rfl
  exact ⟨h.1, h.2 (by decide)⟩

/-- Claim C8: in a successful Add run the trace splits into a first part
with no mutation call (lookups and directory pages) followed by a part
with no directory call, so every directory fetch precedes every mutation;
and a requested channel appearing only on the final pagination page still
resolves: the invite call carries the identifier from that page. -/
theorem directory_complete_before_mutation (env : Env) (priv : Bool)
    (token emails chans : String)
    (htok : token ≠ "") (hem : emails ≠ "") (hch : chans ≠ "")
    (hne : (resolveUsers env.lookup (goSplit emails)).2 ≠ [])
    (body : List (List GoChannel × String)) (lastPage : List GoChannel)
    (extra : List (Outcome ConversationsListResponse))
    (hb : ∀ p ∈ body, p.2 ≠ "")
    (hpages : env.pages =
      body.map (fun p => mkPage p.1 p.2) ++ mkPage lastPage "" :: extra)
    (name i : String) (hmem : name ∈ goSplit chans)
    (honly : ∀ c ∈ body.flatMap Prod.fst, c.Name ≠ name)
    (hsingle : lastPage.filter (fun c => c.Name = name) = [⟨i, name⟩])
    (hi : i ≠ "") :
    (∃ t1 t2, (mainRun env token "add" emails chans priv).1 = t1 ++ t2 ∧
      (∀ ev ∈ t1, isMutCall ev = false) ∧
      (∀ ev ∈ t2, isDirCall ev = false)) ∧
    mapGet (buildMap [] (body.flatMap Prod.fst)) name = "" ∧
    Event.inviteCall i
        (String.intercalate "," (resolveUsers env.lookup (goSplit emails)).2) ∈
      (mainRun env token "add" emails chans priv).1 := by
  have hcond : ¬(token = "" ∨ emails = "" ∨ chans = "" ∨
      (("add" : String) ≠ "add" ∧ ("add" : String) ≠ "remove")) := by
    push_neg
    exact ⟨htok, hem, hch, fun h1 => absurd rfl h1⟩
  have hrun := getChannelsLoop_run (channelType priv) body
    (mkPage lastPage "" :: extra) "" [] hb
  have hfin := getChannelsLoop_final (channelType priv) lastPage extra
    (lastCursor "" body) (buildMap [] (body.flatMap Prod.fst))
  have hchan : getChannels env priv =
      ((reqCursors "" body).map (fun c => Event.listCall c (channelType priv)) ++
        [Event.listCall (lastCursor "" body) (channelType priv)],
       .ok (buildMap [] (body.flatMap Prod.fst ++ lastPage))) := by
    unfold getChannels
    rw [hpages, hrun, hfin, buildMap_append]
  have hmapname :
      mapGet (buildMap [] (body.flatMap Prod.fst ++ lastPage)) name = i := by
    rw [buildMap_append]
    exact mapGet_buildMap_single lastPage _ name i hsingle
  have hmain : mainRun env token "add" emails chans priv =
      ((resolveUsers env.lookup (goSplit emails)).1 ++
        (((reqCursors "" body).map (fun c => Event.listCall c (channelType priv)) ++
          [Event.listCall (lastCursor "" body) (channelType priv)]) ++
         (processChannels env (buildMap [] (body.flatMap Prod.fst ++ lastPage))
            (resolveUsers env.lookup (goSplit emails)).2 "add" (goSplit chans)).1),
       .exitCode 0) := by
    unfold mainRun
    rw [if_neg hcond]
    simp [List.length_eq_zero, hne, hchan]
  refine ⟨?_, ?_, ?_⟩
  · refine ⟨(resolveUsers env.lookup (goSplit emails)).1 ++
      ((reqCursors "" body).map (fun c => Event.listCall c (channelType priv)) ++
        [Event.listCall (lastCursor "" body) (channelType priv)]),
      (processChannels env (buildMap [] (body.flatMap Prod.fst ++ lastPage))
        (resolveUsers env.lookup (goSplit emails)).2 "add" (goSplit chans)).1,
      ?_, ?_, ?_⟩
    · rw [hmain]
      simp [List.append_assoc]
    · intro ev hev
      rcases List.mem_append.mp hev with hev | hev
      · rw [resolveUsers_events] at hev
        obtain ⟨x, _, rfl⟩ := List.mem_map.mp hev
        simp [isMutCall]
      · rcases List.mem_append.mp hev with hev | hev
        · obtain ⟨x, _, rfl⟩ := List.mem_map.mp hev
          simp [isMutCall]
        · simp at hev
          rw [hev]
          simp [isMutCall]
    · exact processChannels_no_dir env _ _ "add" (goSplit chans)
  · rw [mapGet_buildMap_of_notin _ _ _ honly]
    rfl
  · rw [hmain]
    apply List.mem_append_right
    apply List.mem_append_right
    have := processChannels_invite_mem env
      (buildMap [] (body.flatMap Prod.fst ++ lastPage))
      (resolveUsers env.lookup (goSplit emails)).2 (goSplit chans) name hmem
      (by rw [hmapname]; exact hi)
    rwa [hmapname] at this

/-- Witness for claim C8: with `general` on page one and `random` only on
the final page, requesting `random` still yields an invite call with
`C2`, and the trace splits into a mutation-free part followed by a
directory-free part. -/
theorem directory_complete_before_mutation_witness :
    (∃ t1 t2, (mainRun witEnvTwoPages "t" "add" "a@x.com" "random" false).1 = t1 ++ t2 ∧
      (∀ ev ∈ t1, isMutCall ev = false) ∧
      (∀ ev ∈ t2, isDirCall ev = false)) ∧
    mapGet (buildMap [] [⟨"C1", "general"⟩]) "random" = "" ∧
    Event.inviteCall "C2" "id_a@x.com" ∈
      (mainRun witEnvTwoPages "t" "add" "a@x.com" "random" false).1 := by
  have h := directory_complete_before_mutation witEnvTwoPages false "t" "a@x.com"
    "random" (by decide) (by decide) (by decide) (by decide)
    [([⟨"C1", "general"⟩], "cur1")] [⟨"C2", "random"⟩] []
    (by intro p hp; simp at hp; rw [hp]; decide) rfl "random" "C2"
    (by decide) (by intro c hc; simp at hc; rw [hc]; decide) (by decide) (by decide)
  refine ⟨h.1, by simpa using h.2.1, by simpa using h.2.2⟩

end SlackInvite
